import Mathlib

/-!
Shallow embedding of `src/index.tsx` of userstack-nextjs: the Userstack
client SDK (identify / forget / track, route-template normalization,
query-string parsing, the localStorage-backed token store, and the React
context accessor).  JS strings are modelled as Lean `String`s, the JS
`undefined` and `null` values as `Option.none`, `localStorage` as an
association list, and each operation as a pure function from the visible
client state to its result together with the network requests it issues.
-/

namespace Userstack

/- ### JS string replacement (used by `formRouteString`) -/

/-- JS `String.prototype.replace` with a string pattern, on character lists:
only the FIRST occurrence of `pat` in the subject is replaced by `repl`
(the `$`-substitution forms of the replacement argument are not modelled;
the code only passes bracketed literal names). -/
def listReplaceFirst (pat repl : List Char) : List Char → List Char
  | [] => if pat.isPrefixOf ([] : List Char) then repl ++ List.drop pat.length [] else []
  | c :: rest =>
    if pat.isPrefixOf (c :: rest) then repl ++ List.drop pat.length (c :: rest)
    else c :: listReplaceFirst pat repl rest

/-- Index of the first occurrence of `pat` as a contiguous sublist. -/
def findSubstrIdx (pat : List Char) : List Char → Option Nat
  | [] => if pat.isPrefixOf ([] : List Char) then some 0 else none
  | c :: rest =>
    if pat.isPrefixOf (c :: rest) then some 0
    else (findSubstrIdx pat rest).map (· + 1)

/-- First-occurrence replacement phrased the way the amended claim C1 reads:
locate the earliest index at which `pat` occurs and splice `repl` in there. -/
def replaceFirstAt (pat repl s : List Char) : List Char :=
  match findSubstrIdx pat s with
  | none => s
  | some i => s.take i ++ repl ++ s.drop (i + pat.length)

/-- Worker for `listReplaceAll`; the fuel (initially the subject's length)
only forces structural termination — every step consumes at least one
character, so the fuel never runs out on the initial call. -/
def listReplaceAllFuel (pat repl : List Char) : Nat → List Char → List Char
  | 0, s => s
  | _ + 1, [] => []
  | fuel + 1, c :: rest =>
    if 0 < pat.length ∧ pat.isPrefixOf (c :: rest) = true then
      repl ++ listReplaceAllFuel pat repl fuel (List.drop pat.length (c :: rest))
    else
      c :: listReplaceAllFuel pat repl fuel rest

/-- Replacement of EVERY (non-overlapping, left-to-right) occurrence of
`pat`, which is what claim C1's text asserts the code does.  Stated from the
claim's words, for comparison with `listReplaceFirst`. -/
def listReplaceAll (pat repl : List Char) (s : List Char) : List Char :=
  listReplaceAllFuel pat repl s.length s

/-- `path.replace(value, repl)` on Lean strings. -/
def jsReplaceFirst (s pat repl : String) : String :=
  (listReplaceFirst pat.toList repl.toList s.toList).asString

/-- All-occurrence variant on Lean strings (claim C1's wording). -/
def jsReplaceAll (s pat repl : String) : String :=
  (listReplaceAll pat.toList repl.toList s.toList).asString

/-- `formRouteString` from src/index.tsx: folds `newPath.replace(value,
"[key]")` over `Object.keys(params)` in insertion order; the `Option` on
`params` models its null guard (`if (!params) return path`). -/
def formRouteString (path : String) (params : Option (List (String × String))) : String :=
  match params with
  | none => path
  | some ps => ps.foldl (fun newPath kv => jsReplaceFirst newPath kv.2 ("[" ++ kv.1 ++ "]")) path

/-- Route template as claim C1 words it: EVERY occurrence of each resolved
value replaced by the bracketed segment name.  Follows the claim, not the
source, for comparison with `formRouteString`. -/
def formRouteStringClaim (path : String) (params : List (String × String)) : String :=
  params.foldl (fun newPath kv => jsReplaceAll newPath kv.2 ("[" ++ kv.1 ++ "]")) path

/- ### Query-string parsing (`getJsonFromUrl` and the URLSearchParams model) -/

/-- Split a character list at every `&` (the URLSearchParams separator). -/
def splitAmp : List Char → List (List Char)
  | [] => [[]]
  | c :: rest =>
    if c = '&' then [] :: splitAmp rest
    else
      match splitAmp rest with
      | [] => [[c]]
      | p :: ps => (c :: p) :: ps

/-- Split a `key=value` piece at its first `=`; a piece without `=` is all
key with the empty value. -/
def splitKV : List Char → List Char × List Char
  | [] => ([], [])
  | c :: rest =>
    if c = '=' then ([], rest)
    else ((splitKV rest).1.cons c, (splitKV rest).2)

def hexDigitVal (c : Char) : Option Nat :=
  if '0' ≤ c ∧ c ≤ '9' then some (c.toNat - '0'.toNat)
  else if 'a' ≤ c ∧ c ≤ 'f' then some (c.toNat - 'a'.toNat + 10)
  else if 'A' ≤ c ∧ c ≤ 'F' then some (c.toNat - 'A'.toNat + 10)
  else none

/-- application/x-www-form-urlencoded decoding as URLSearchParams performs
it: `+` becomes a space and a valid `%XY` hex escape becomes the escaped
byte's character (multi-byte UTF-8 escape sequences are outside the modelled
scope; the claims' inputs use no escapes). -/
def decodeChars : List Char → List Char
  | [] => []
  | '%' :: a :: b :: rest =>
    match hexDigitVal a, hexDigitVal b with
    | some x, some y => Char.ofNat (16 * x + y) :: decodeChars rest
    | _, _ => '%' :: decodeChars (a :: b :: rest)
  | '+' :: rest => ' ' :: decodeChars rest
  | c :: rest => c :: decodeChars rest

/-- The (key, value) pairs produced by `new URLSearchParams(url)` in
iteration order: a single leading `?` is dropped, the string is split on
`&`, empty pieces are skipped, each piece is split at its first `=`, and
both halves are form-url-decoded.  Models the platform API that
`getJsonFromUrl` drives. -/
def parseQuery (url : String) : List (String × String) :=
  let chars :=
    match url.toList with
    | '?' :: rest => rest
    | l => l
  ((splitAmp chars).filter (fun p => !p.isEmpty)).map (fun piece =>
    ((decodeChars (splitKV piece).1).asString, (decodeChars (splitKV piece).2).asString))

/-- Value of one key in the object built by `getJsonFromUrl`: a single
string, or the accumulated array once the key repeats. -/
inductive QVal where
  | str (s : String)
  | arr (l : List String)
deriving DecidableEq

/-- The mutation the loop body applies to an already-present key's value:
`if (!Array.isArray(jsonObj[key])) jsonObj[key] = [jsonObj[key]];
jsonObj[key].push(value)`. -/
def qUpd (v : QVal) (value : String) : QVal :=
  match v with
  | QVal.str s => QVal.arr [s, value]
  | QVal.arr l => QVal.arr (l ++ [value])

/-- Own-property read `jsonObj[key]` on the plain object, modelled as an
association list in insertion order. -/
def lookupQ (key : String) : List (String × QVal) → Option QVal
  | [] => none
  | kv :: rest => if kv.1 = key then some kv.2 else lookupQ key rest

/-- `jsonObj.hasOwnProperty(key)`. -/
def hasKeyQ (key : String) : List (String × QVal) → Bool
  | [] => false
  | kv :: rest => if kv.1 = key then true else hasKeyQ key rest

/-- In-place update of a present key's entry. -/
def updateEntry (key value : String) : List (String × QVal) → List (String × QVal)
  | [] => []
  | kv :: rest =>
    (if kv.1 = key then (kv.1, qUpd kv.2 value) else kv) :: updateEntry key value rest

/-- Loop body of `getJsonFromUrl` for one (key, value) pair. -/
def insertPair (obj : List (String × QVal)) (key value : String) : List (String × QVal) :=
  if hasKeyQ key obj then updateEntry key value obj
  else obj ++ [(key, QVal.str value)]

/-- `getJsonFromUrl` from src/index.tsx: iterate the URLSearchParams pairs in
order, accumulating repeated keys into arrays. -/
def getJsonFromUrl (url : String) : List (String × QVal) :=
  (parseQuery url).foldl (fun obj kv => insertPair obj kv.1 kv.2) []

/-- Values a key takes in a pair list, in appearance order (claim C3's
vocabulary). -/
def valuesOf (key : String) : List (String × String) → List String
  | [] => []
  | kv :: rest => if kv.1 = key then kv.2 :: valuesOf key rest else valuesOf key rest

/-- Claim C3's expected encoding of a key's occurrence list: absent, a
single string, or the array of all values. -/
def encodeVals : List String → Option QVal
  | [] => none
  | [v] => some (QVal.str v)
  | v1 :: v2 :: rest => some (QVal.arr (v1 :: v2 :: rest))

/- ### The client: storage, identify, forget, track -/

def DEFAULT_API_URL : String := "https://userstack.app/api/edge"

def JWT_STORAGE_KEY : String := "us-jwt"

structure Config where
  projectKey : String
  customApiUrl : String
deriving DecidableEq

/-- Host-visible client state: whether a global `window` exists (false on
the server) and the `localStorage` contents when it does. -/
structure ClientState where
  hasWindow : Bool
  localStorage : List (String × String)
deriving DecidableEq

def lsGetItem (k : String) : List (String × String) → Option String
  | [] => none
  | kv :: rest => if kv.1 = k then some kv.2 else lsGetItem k rest

def lsSetItem (k v : String) : List (String × String) → List (String × String)
  | [] => [(k, v)]
  | kv :: rest => if kv.1 = k then (k, v) :: rest else kv :: lsSetItem k v rest

def lsRemoveItem (k : String) : List (String × String) → List (String × String)
  | [] => []
  | kv :: rest => if kv.1 = k then lsRemoveItem k rest else kv :: lsRemoveItem k rest

namespace storage

/-- `storage.set` from src/index.tsx: writes through to localStorage only
when a `window` exists. -/
def set (st : ClientState) (key value : String) : ClientState :=
  if st.hasWindow then { st with localStorage := lsSetItem key value st.localStorage } else st

/-- `storage.get` from src/index.tsx: `none` covers both a missing key (JS
`null`) and the windowless environment (JS `undefined`, the implicit return). -/
def get (st : ClientState) (key : String) : Option String :=
  if st.hasWindow then lsGetItem key st.localStorage else none

/-- `storage.delete` from src/index.tsx. -/
def delete (st : ClientState) (key : String) : ClientState :=
  if st.hasWindow then { st with localStorage := lsRemoveItem key st.localStorage } else st

end storage

/-- One POST to `{customApiUrl}/track` as `track` builds it. -/
structure TrackRequest where
  url : String
  authorization : String
  projectKey : String
  feature : String
  event : Option String
  data : Option String
deriving DecidableEq

/-- `track` from src/index.tsx: reads the token from storage on every call;
the JS truthiness test `if (jwt)` drops `null`, `undefined` and the empty
string, in which case it only logs.  The result is the network request made
(`none` = no request); `track` is total — it never throws to its caller. -/
def track (cfg : Config) (st : ClientState) (feature : String) (event : Option String)
    (dat : Option String) : Option TrackRequest :=
  match storage.get st JWT_STORAGE_KEY with
  | none => none
  | some jwt =>
    if jwt = "" then none
    else some {
      url := cfg.customApiUrl ++ "/track",
      authorization := "Bearer " ++ jwt,
      projectKey := cfg.projectKey,
      feature := feature,
      event := event,
      data := dat }

/-- The backend's answer to the identify POST as the code consumes it:
`ok` is `response.ok` (2xx), `jwtField` the `jwt` field of the parsed JSON
body (`none` = field absent, i.e. JS `undefined` after destructuring), and
`text` the raw body text read on the error path. -/
structure IdentifyResponse where
  ok : Bool
  jwtField : Option String
  text : String
deriving DecidableEq

/-- The string coercion `localStorage.setItem` applies to the possibly
`undefined` `jwt` value the code hands it. -/
def jsToStoredString : Option String → String
  | none => "undefined"
  | some s => s

/-- Everything observable about one `identify` call: its settled result
(`Except.error` models the thrown error carrying the raw body text — the
spec's IdentificationError), the client state afterwards, the `track`
invocations it made as (feature, event) pairs, and the network requests
those invocations issued. -/
structure IdentifyOutcome where
  result : Except String Unit
  state : ClientState
  trackCalls : List (String × Option String)
  requests : List TrackRequest

/-- `identify` from src/index.tsx, response handling: on 2xx, destructure
`jwt` from the JSON body, store it under `us-jwt`, and invoke
`track("app", "signin")` (which itself re-reads storage); on non-2xx, throw
an error whose message is the raw response text and touch nothing. -/
def identify (cfg : Config) (st : ClientState) (resp : IdentifyResponse) : IdentifyOutcome :=
  if resp.ok then
    let st' := storage.set st JWT_STORAGE_KEY (jsToStoredString resp.jwtField)
    { result := Except.ok (),
      state := st',
      trackCalls := [("app", some "signin")],
      requests := (track cfg st' "app" (some "signin") none).toList }
  else
    { result := Except.error resp.text,
      state := st,
      trackCalls := [],
      requests := [] }

/-- `forget` from src/index.tsx. -/
def forget (st : ClientState) : ClientState :=
  storage.delete st JWT_STORAGE_KEY

/- ### The context accessor `useUserstack` -/

/-- A value of the React context: either the default empty object that
`createContext({} as UserstackContextType)` installs, or the real value a
mounted UserstackProvider supplies. -/
inductive ContextValue where
  | emptyObject
  | providerValue (cfg : Config)
deriving DecidableEq

/-- The `createContext` default: `{} as UserstackContextType` — an empty
object, not `undefined`. -/
def contextDefault : Option ContextValue := some ContextValue.emptyObject

/-- React's `useContext`: the provider's value inside a provider scope
(`providerScope = some v`); the `createContext` default outside one
(`providerScope = none`).  `Option` at the result models a possibly
`undefined` JS value. -/
def useContextModel (providerScope : Option ContextValue) : Option ContextValue :=
  match providerScope with
  | some v => some v
  | none => contextDefault

/-- `useUserstack` from src/index.tsx: throws the scope error iff the
context value is `undefined` (`none`); otherwise returns the value. -/
def useUserstack (providerScope : Option ContextValue) : Except String (Option ContextValue) :=
  let context := useContextModel providerScope
  if context = none then
    Except.error "useUserstack must be used within a UserstackProvider"
  else
    Except.ok context

/- ### Concrete instances used by witnesses and counterexamples -/

def cfgEx : Config := { projectKey := "pk-1", customApiUrl := "https://example.test/api" }

def stNoWin : ClientState := { hasWindow := false, localStorage := [] }

def stNoTok : ClientState := { hasWindow := true, localStorage := [] }

def stTok : ClientState := { hasWindow := true, localStorage := [(JWT_STORAGE_KEY, "jwt-abc")] }

def stTok2 : ClientState :=
  { hasWindow := true, localStorage := [("other-key", "v"), (JWT_STORAGE_KEY, "jwt-abc")] }

def stEmptyTok : ClientState := { hasWindow := true, localStorage := [(JWT_STORAGE_KEY, "")] }

def respOk : IdentifyResponse := { ok := true, jwtField := some "jwt-abc", text := "" }

def respErr : IdentifyResponse :=
  { ok := false, jwtField := none, text := "invalid credentials" }

def respNoJwt : IdentifyResponse := { ok := true, jwtField := none, text := "" }

end Userstack

namespace Userstack

/- ### Helper lemmas: first-occurrence replacement -/

theorem listReplaceFirst_eq_replaceFirstAt (pat repl : List Char) :
    ∀ s : List Char, listReplaceFirst pat repl s = replaceFirstAt pat repl s := by
  intro s
  induction s with
  | nil =>
    by_cases h : pat.isPrefixOf ([] : List Char)
    · simp [listReplaceFirst, replaceFirstAt, findSubstrIdx, h]
    · simp [listReplaceFirst, replaceFirstAt, findSubstrIdx, h]
  | cons c rest ih =>
    by_cases h : pat.isPrefixOf (c :: rest)
    · simp [listReplaceFirst, replaceFirstAt, findSubstrIdx, h]
    · cases hr : findSubstrIdx pat rest with
      | none =>
        have hrest : replaceFirstAt pat repl rest = rest := by
          simp [replaceFirstAt, hr]
        rw [hrest] at ih
        simp [listReplaceFirst, replaceFirstAt, findSubstrIdx, h, hr, ih]
      | some i =>
        have h1 : i + 1 + pat.length = (i + pat.length) + 1 := by omega
        simp [listReplaceFirst, replaceFirstAt, findSubstrIdx, h, hr, ih, h1,
          List.take_succ_cons, List.drop_succ_cons]

/- ### Helper lemmas: object accumulation in getJsonFromUrl -/

theorem hasKeyQ_eq_isSome (key : String) :
    ∀ obj : List (String × QVal), hasKeyQ key obj = (lookupQ key obj).isSome := by
  intro obj
  induction obj with
  | nil => rfl
  | cons kv rest ih =>
    by_cases h : kv.1 = key <;> simp [hasKeyQ, lookupQ, h, ih]

theorem updateEntry_lookup_same (key value : String) :
    ∀ obj : List (String × QVal),
      lookupQ key (updateEntry key value obj) =
        (lookupQ key obj).map (fun q => qUpd q value) := by
  intro obj
  induction obj with
  | nil => rfl
  | cons kv rest ih =>
    by_cases h : kv.1 = key
    · simp [updateEntry, lookupQ, h]
    · simp [updateEntry, lookupQ, h, ih]

theorem updateEntry_lookup_other (key value k : String) (hk : k ≠ key) :
    ∀ obj : List (String × QVal),
      lookupQ k (updateEntry key value obj) = lookupQ k obj := by
  intro obj
  induction obj with
  | nil => rfl
  | cons kv rest ih =>
    by_cases h : kv.1 = key
    · simp [updateEntry, lookupQ, h, Ne.symm hk, ih]
    · simp [updateEntry, lookupQ, h, ih]

theorem lookupQ_append_single (k key : String) (q : QVal) :
    ∀ obj : List (String × QVal),
      lookupQ k (obj ++ [(key, q)]) =
        match lookupQ k obj with
        | some v => some v
        | none => if key = k then some q else none := by
  intro obj
  induction obj with
  | nil => simp [lookupQ]
  | cons kv rest ih =>
    by_cases h : kv.1 = k <;> simp [lookupQ, h, ih]

theorem insertPair_lookup_same (obj : List (String × QVal)) (key value : String) :
    lookupQ key (insertPair obj key value) =
      some (match lookupQ key obj with
            | none => QVal.str value
            | some q => qUpd q value) := by
  cases hq : lookupQ key obj with
  | none =>
    have h : hasKeyQ key obj = false := by rw [hasKeyQ_eq_isSome, hq]; rfl
    simp [insertPair, h, lookupQ_append_single, hq]
  | some q =>
    have h : hasKeyQ key obj = true := by rw [hasKeyQ_eq_isSome, hq]; rfl
    simp [insertPair, h, updateEntry_lookup_same, hq]

theorem insertPair_lookup_other (obj : List (String × QVal)) (key value k : String)
    (hk : k ≠ key) :
    lookupQ k (insertPair obj key value) = lookupQ k obj := by
  have hkey : ¬ key = k := fun e => hk e.symm
  cases h : hasKeyQ key obj with
  | true => simp [insertPair, h, updateEntry_lookup_other key value k hk]
  | false =>
    cases hq : lookupQ k obj with
    | none => simp [insertPair, h, lookupQ_append_single, hq, hkey]
    | some v => simp [insertPair, h, lookupQ_append_single, hq]

theorem encodeVals_append_one (vs : List String) (v : String) :
    encodeVals (vs ++ [v]) =
      some (match encodeVals vs with
            | none => QVal.str v
            | some q => qUpd q v) := by
  match vs with
  | [] => rfl
  | [a] => rfl
  | a :: b :: t => simp [encodeVals, qUpd]

theorem valuesOf_cons (key pk pv : String) (rest : List (String × String)) :
    valuesOf key ((pk, pv) :: rest) =
      (if pk = key then [pv] else []) ++ valuesOf key rest := by
  by_cases h : pk = key <;> simp [valuesOf, h]

theorem foldl_insertPair_lookup :
    ∀ (pairs : List (String × String)) (obj : List (String × QVal))
      (vals : String → List String),
      (∀ k, lookupQ k obj = encodeVals (vals k)) →
      ∀ k, lookupQ k (pairs.foldl (fun o kv => insertPair o kv.1 kv.2) obj) =
        encodeVals (vals k ++ valuesOf k pairs) := by
  intro pairs
  induction pairs with
  | nil =>
    intro obj vals h k
    simpa [valuesOf] using h k
  | cons p rest ih =>
    intro obj vals h k
    obtain ⟨pk, pv⟩ := p
    have hstep : ∀ k2, lookupQ k2 (insertPair obj pk pv) =
        encodeVals (vals k2 ++ (if pk = k2 then [pv] else [])) := by
      intro k2
      by_cases hk : k2 = pk
      · subst hk
        rw [insertPair_lookup_same, h k2]
        simp [encodeVals_append_one]
      · have hne : ¬ pk = k2 := fun e => hk e.symm
        rw [insertPair_lookup_other obj pk pv k2 hk, h k2]
        simp [hne]
    have hrec := ih (insertPair obj pk pv)
      (fun k2 => vals k2 ++ (if pk = k2 then [pv] else [])) hstep k
    calc lookupQ k (List.foldl (fun o kv => insertPair o kv.1 kv.2) obj ((pk, pv) :: rest))
        = lookupQ k (List.foldl (fun o kv => insertPair o kv.1 kv.2)
            (insertPair obj pk pv) rest) := rfl
      _ = encodeVals ((vals k ++ (if pk = k then [pv] else [])) ++ valuesOf k rest) := hrec
      _ = encodeVals (vals k ++ valuesOf k ((pk, pv) :: rest)) := by
            rw [valuesOf_cons, ← List.append_assoc]

theorem getJsonFromUrl_lookup (url : String) (k : String) :
    lookupQ k (getJsonFromUrl url) = encodeVals (valuesOf k (parseQuery url)) := by
  have h := foldl_insertPair_lookup (parseQuery url) [] (fun _ => []) (fun _ => rfl) k
  simpa [getJsonFromUrl] using h

/- ### Helper lemmas: the localStorage association list and storage wrapper -/

theorem lsGetItem_setItem_self (k v : String) :
    ∀ ls : List (String × String), lsGetItem k (lsSetItem k v ls) = some v := by
  intro ls
  induction ls with
  | nil => simp [lsGetItem, lsSetItem]
  | cons kv rest ih =>
    by_cases h : kv.1 = k <;> simp [lsGetItem, lsSetItem, h, ih]

theorem lsGetItem_setItem_other (k key v : String) (hk : k ≠ key) :
    ∀ ls : List (String × String), lsGetItem k (lsSetItem key v ls) = lsGetItem k ls := by
  intro ls
  have hkey : ¬ key = k := fun e => hk e.symm
  induction ls with
  | nil => simp [lsGetItem, lsSetItem, hkey]
  | cons kv rest ih =>
    by_cases h : kv.1 = key
    · have h2 : ¬ kv.1 = k := by rw [h]; exact hkey
      simp [lsGetItem, lsSetItem, h, h2, hkey, ih]
    · simp [lsGetItem, lsSetItem, h, ih]

theorem lsGetItem_removeItem_self (k : String) :
    ∀ ls : List (String × String), lsGetItem k (lsRemoveItem k ls) = none := by
  intro ls
  induction ls with
  | nil => rfl
  | cons kv rest ih =>
    by_cases h : kv.1 = k <;> simp [lsRemoveItem, lsGetItem, h, ih]

theorem lsGetItem_removeItem_other (k key : String) (hk : k ≠ key) :
    ∀ ls : List (String × String), lsGetItem k (lsRemoveItem key ls) = lsGetItem k ls := by
  intro ls
  induction ls with
  | nil => rfl
  | cons kv rest ih =>
    by_cases h : kv.1 = key
    · simp [lsRemoveItem, lsGetItem, h, Ne.symm hk, ih]
    · simp [lsRemoveItem, lsGetItem, h, ih]

theorem storage_get_set_self (st : ClientState) (k v : String) :
    storage.get (storage.set st k v) k = if st.hasWindow then some v else none := by
  cases hw : st.hasWindow <;> simp [storage.get, storage.set, hw, lsGetItem_setItem_self]

theorem storage_get_set_other (st : ClientState) (k key v : String) (hk : k ≠ key) :
    storage.get (storage.set st key v) k = storage.get st k := by
  cases hw : st.hasWindow <;>
    simp [storage.get, storage.set, hw, lsGetItem_setItem_other k key v hk]

theorem storage_get_delete_self (st : ClientState) (key : String) :
    storage.get (storage.delete st key) key = none := by
  cases hw : st.hasWindow <;>
    simp [storage.get, storage.delete, hw, lsGetItem_removeItem_self]

theorem storage_get_delete_other (st : ClientState) (k key : String) (hk : k ≠ key) :
    storage.get (storage.delete st key) k = storage.get st k := by
  cases hw : st.hasWindow <;>
    simp [storage.get, storage.delete, hw, lsGetItem_removeItem_other k key hk]

theorem identify_state_ok (cfg : Config) (st : ClientState) (resp : IdentifyResponse)
    (hok : resp.ok = true) :
    (identify cfg st resp).state =
      storage.set st JWT_STORAGE_KEY (jsToStoredString resp.jwtField) := by
  simp [identify, hok]

end Userstack

namespace Userstack

/- ### Claim theorems -/

/-- Claim C1, counterexample: the code's `formRouteString` uses JS
`String.replace` with a string pattern, which substitutes only the FIRST
occurrence of each resolved value, while the claim asserts EVERY occurrence
is substituted (`formRouteStringClaim`).  On the path `/users/42/42` with
params `{userId: "42"}` the two disagree. -/
theorem c1_route_template_counterexample :
    formRouteString "/users/42/42" (some [("userId", "42")]) = "/users/[userId]/42" ∧
    formRouteStringClaim "/users/42/42" [("userId", "42")] = "/users/[userId]/[userId]" ∧
    formRouteString "/users/42/42" (some [("userId", "42")]) ≠
      formRouteStringClaim "/users/42/42" [("userId", "42")] := by
  refine ⟨rfl, rfl, ?_⟩
  decide

/-- Claim C1 as amended: for every path and mapping of dynamic-segment names
to resolved values, the computed route template substitutes, for each
name-value pair in insertion order, only the first occurrence of the resolved
value in the progressively rewritten path with the bracketed name; the
claim's particular example still yields `/users/[userId]/posts/[postId]`. -/
theorem c1_route_template_amended :
    (∀ (path : String) (params : List (String × String)),
      formRouteString path (some params) =
        params.foldl (fun newPath kv =>
          (replaceFirstAt kv.2.toList ("[" ++ kv.1 ++ "]").toList newPath.toList).asString)
          path) ∧
    formRouteString "/users/42/posts/7" (some [("userId", "42"), ("postId", "7")]) =
      "/users/[userId]/posts/[postId]" := by
  refine ⟨?_, rfl⟩
  intro path params
  simp only [formRouteString, jsReplaceFirst, listReplaceFirst_eq_replaceFirstAt]

/-- Claim C2, code evaluation: calling `useUserstack` outside any provider
scope does NOT throw — React hands back the `createContext` default, which is
the cast empty object `{}` and not `undefined`, so the guard
`context === undefined` never fires and the empty object is returned. -/
theorem c2_scope_error_code_eval :
    useUserstack none = Except.ok (some ContextValue.emptyObject) := rfl

/-- Claim C3: query-string parsing maps a key occurring exactly once to its
single value and a key occurring more than once to the ordered list of all
its values; in particular `a=1&a=2&b=3` parses to
`{a: ["1","2"], b: "3"}`. -/
theorem c3_query_parsing :
    (∀ (url : String) (k : String),
      (∀ v, valuesOf k (parseQuery url) = [v] →
        lookupQ k (getJsonFromUrl url) = some (QVal.str v)) ∧
      (∀ v1 v2 vs, valuesOf k (parseQuery url) = v1 :: v2 :: vs →
        lookupQ k (getJsonFromUrl url) = some (QVal.arr (v1 :: v2 :: vs)))) ∧
    getJsonFromUrl "a=1&a=2&b=3" = [("a", QVal.arr ["1", "2"]), ("b", QVal.str "3")] := by
  refine ⟨?_, rfl⟩
  intro url k
  constructor
  · intro v h
    rw [getJsonFromUrl_lookup, h]
    rfl
  · intro v1 v2 vs h
    rw [getJsonFromUrl_lookup, h]
    rfl

/-- Witness for C3 at the claim's concrete query string. -/
theorem c3_query_parsing_witness :
    lookupQ "b" (getJsonFromUrl "a=1&a=2&b=3") = some (QVal.str "3") ∧
    lookupQ "a" (getJsonFromUrl "a=1&a=2&b=3") = some (QVal.arr ["1", "2"]) := by
  exact ⟨(c3_query_parsing.1 "a=1&a=2&b=3" "b").1 "3" rfl,
    (c3_query_parsing.1 "a=1&a=2&b=3" "a").2 "1" "2" [] rfl⟩

/-- Claim C4: on a non-2xx identify response, identify rejects with an error
whose message is the raw response body text (the spec's
IdentificationError), performs no storage write (the state is unchanged),
makes no track call and issues no track request. -/
theorem c4_identify_non2xx (cfg : Config) (st : ClientState) (resp : IdentifyResponse)
    (h : resp.ok = false) :
    (identify cfg st resp).result = Except.error resp.text ∧
    (identify cfg st resp).state = st ∧
    (identify cfg st resp).trackCalls = [] ∧
    (identify cfg st resp).requests = [] := by
  simp [identify, h]

/-- Witness for C4: a 401 whose body is `"invalid credentials"`. -/
theorem c4_identify_non2xx_witness :
    (identify cfgEx stTok respErr).result = Except.error "invalid credentials" ∧
    (identify cfgEx stTok respErr).state = stTok := by
  have h := c4_identify_non2xx cfgEx stTok respErr rfl
  exact ⟨h.1, h.2.1⟩

/-- Claim C5: a track call with no stored session token makes no network
request (and `track` is a total function — nothing is thrown); in
particular every track call after `forget()` makes no request. -/
theorem c5_track_without_token (cfg : Config) (st : ClientState) (feature : String)
    (event dat : Option String) :
    (storage.get st JWT_STORAGE_KEY = none → track cfg st feature event dat = none) ∧
    track cfg (forget st) feature event dat = none := by
  constructor
  · intro h
    simp [track, h]
  · have h : storage.get (forget st) JWT_STORAGE_KEY = none :=
      storage_get_delete_self st JWT_STORAGE_KEY
    simp [track, h]

/-- Witness for C5: no token stored, and after forgetting a stored token. -/
theorem c5_track_without_token_witness :
    storage.get stNoTok JWT_STORAGE_KEY = none ∧
    track cfgEx stNoTok "checkout" none none = none ∧
    track cfgEx (forget stTok) "checkout" none none = none :=
  ⟨rfl, (c5_track_without_token cfgEx stNoTok "checkout" none none).1 rfl,
    (c5_track_without_token cfgEx stTok "checkout" none none).2⟩

/-- Claim C6, counterexample: a session token CAN be stored and yet track
makes no request — the stored empty string.  The key `us-jwt` is present
(`isSome`), but the JS truthiness test `if (jwt)` treats `""` as absent and
drops the call, contradicting the claim's "for every track call made while a
session token is stored, track issues a POST". -/
theorem c6_track_counterexample :
    (storage.get stEmptyTok JWT_STORAGE_KEY).isSome = true ∧
    track cfgEx stEmptyTok "checkout" none none = none :=
  ⟨rfl, rfl⟩

/-- Claim C6 as amended: for every track call made while a NONEMPTY session
token is stored, track issues a POST to `{customApiUrl}/track` whose
Authorization header is exactly `"Bearer " ++ token` with the token read
from storage at call time, with the project-key header and the
`{feature, event, data}` body; and after a successful identify that returned
a nonempty jwt, a subsequent track attaches `Bearer` that jwt.  (A stored
empty-string token is treated as absent by the truthiness test.) -/
theorem c6_track_bearer_amended :
    (∀ (cfg : Config) (st : ClientState) (feature : String) (event dat : Option String)
        (jwt : String), storage.get st JWT_STORAGE_KEY = some jwt → jwt ≠ "" →
      track cfg st feature event dat = some {
        url := cfg.customApiUrl ++ "/track",
        authorization := "Bearer " ++ jwt,
        projectKey := cfg.projectKey,
        feature := feature,
        event := event,
        data := dat }) ∧
    (∀ (cfg : Config) (st : ClientState) (resp : IdentifyResponse) (feature : String)
        (event dat : Option String) (j : String),
        st.hasWindow = true → resp.ok = true → resp.jwtField = some j → j ≠ "" →
      track cfg (identify cfg st resp).state feature event dat = some {
        url := cfg.customApiUrl ++ "/track",
        authorization := "Bearer " ++ j,
        projectKey := cfg.projectKey,
        feature := feature,
        event := event,
        data := dat }) := by
  have h1 : ∀ (cfg : Config) (st : ClientState) (feature : String) (event dat : Option String)
      (jwt : String), storage.get st JWT_STORAGE_KEY = some jwt → jwt ≠ "" →
      track cfg st feature event dat = some {
        url := cfg.customApiUrl ++ "/track",
        authorization := "Bearer " ++ jwt,
        projectKey := cfg.projectKey,
        feature := feature,
        event := event,
        data := dat } := by
    intro cfg st feature event dat jwt hj hne
    simp [track, hj, hne]
  refine ⟨h1, ?_⟩
  intro cfg st resp feature event dat j hw hok hj hne
  refine h1 cfg (identify cfg st resp).state feature event dat j ?_ hne
  rw [identify_state_ok cfg st resp hok, storage_get_set_self]
  simp [hw, hj, jsToStoredString]

/-- Witness for C6 (amended): a stored token, and a token freshly stored by
identify. -/
theorem c6_track_bearer_amended_witness :
    track cfgEx stTok "checkout" none none = some {
      url := "https://example.test/api/track",
      authorization := "Bearer jwt-abc",
      projectKey := "pk-1",
      feature := "checkout",
      event := none,
      data := none } ∧
    track cfgEx (identify cfgEx stNoTok respOk).state "checkout" none none = some {
      url := "https://example.test/api/track",
      authorization := "Bearer jwt-abc",
      projectKey := "pk-1",
      feature := "checkout",
      event := none,
      data := none } := by
  exact ⟨c6_track_bearer_amended.1 cfgEx stTok "checkout" none none "jwt-abc" rfl (by decide),
    c6_track_bearer_amended.2 cfgEx stNoTok respOk "checkout" none none "jwt-abc" rfl rfl rfl
      (by decide)⟩

/-- Claim C7: on a 2xx identify response carrying a jwt (browser
environment, where storage writes take effect), identify resolves, stores
the jwt under `us-jwt` (overwriting whatever was there), and makes exactly
one track invocation — the synthetic `("app", "signin")` event. -/
theorem c7_identify_success (cfg : Config) (st : ClientState) (resp : IdentifyResponse)
    (j : String) (hw : st.hasWindow = true) (hok : resp.ok = true)
    (hj : resp.jwtField = some j) :
    (identify cfg st resp).result = Except.ok () ∧
    storage.get (identify cfg st resp).state JWT_STORAGE_KEY = some j ∧
    (identify cfg st resp).trackCalls = [("app", some "signin")] := by
  refine ⟨by simp [identify, hok], ?_, by simp [identify, hok]⟩
  rw [identify_state_ok cfg st resp hok, storage_get_set_self]
  simp [hw, hj, jsToStoredString]

/-- Witness for C7: identify over a previously stored token. -/
theorem c7_identify_success_witness :
    (identify cfgEx stEmptyTok respOk).result = Except.ok () ∧
    storage.get (identify cfgEx stEmptyTok respOk).state JWT_STORAGE_KEY = some "jwt-abc" ∧
    (identify cfgEx stEmptyTok respOk).trackCalls = [("app", some "signin")] :=
  c7_identify_success cfgEx stEmptyTok respOk "jwt-abc" rfl rfl rfl

/-- Claim C8, frame property: `forget` and `identify` change no persisted
key other than `us-jwt`; `track`'s behaviour depends on storage only through
the `us-jwt` entry; `identify`'s observable outcome depends on the prior
state only through the environment (so no other key is read either); and an
absent `us-jwt` key means signed out — track sends nothing. -/
theorem c8_storage_frame :
    (∀ (st : ClientState) (k : String), k ≠ JWT_STORAGE_KEY →
      storage.get (forget st) k = storage.get st k) ∧
    (∀ (cfg : Config) (st : ClientState) (resp : IdentifyResponse) (k : String),
        k ≠ JWT_STORAGE_KEY →
      storage.get (identify cfg st resp).state k = storage.get st k) ∧
    (∀ (cfg : Config) (s1 s2 : ClientState) (feature : String) (event dat : Option String),
        storage.get s1 JWT_STORAGE_KEY = storage.get s2 JWT_STORAGE_KEY →
      track cfg s1 feature event dat = track cfg s2 feature event dat) ∧
    (∀ (cfg : Config) (s1 s2 : ClientState) (resp : IdentifyResponse),
        s1.hasWindow = s2.hasWindow →
      (identify cfg s1 resp).result = (identify cfg s2 resp).result ∧
      (identify cfg s1 resp).trackCalls = (identify cfg s2 resp).trackCalls ∧
      (identify cfg s1 resp).requests = (identify cfg s2 resp).requests) ∧
    (∀ (cfg : Config) (st : ClientState) (feature : String) (event dat : Option String),
        storage.get st JWT_STORAGE_KEY = none →
      track cfg st feature event dat = none) := by
  refine ⟨?_, ?_, ?_, ?_, ?_⟩
  · intro st k hk
    exact storage_get_delete_other st k JWT_STORAGE_KEY hk
  · intro cfg st resp k hk
    cases hok : resp.ok
    · simp [identify, hok]
    · rw [identify_state_ok cfg st resp hok]
      exact storage_get_set_other st k JWT_STORAGE_KEY _ hk
  · intro cfg s1 s2 feature event dat h
    simp only [track, h]
  · intro cfg s1 s2 resp hw
    cases hok : resp.ok
    · simp [identify, hok]
    · refine ⟨by simp [identify, hok], by simp [identify, hok], ?_⟩
      have h1 : storage.get (storage.set s1 JWT_STORAGE_KEY (jsToStoredString resp.jwtField))
            JWT_STORAGE_KEY =
          storage.get (storage.set s2 JWT_STORAGE_KEY (jsToStoredString resp.jwtField))
            JWT_STORAGE_KEY := by
        rw [storage_get_set_self, storage_get_set_self, hw]
      have hreq : track cfg (storage.set s1 JWT_STORAGE_KEY (jsToStoredString resp.jwtField))
            "app" (some "signin") none =
          track cfg (storage.set s2 JWT_STORAGE_KEY (jsToStoredString resp.jwtField))
            "app" (some "signin") none := by
        simp only [track, h1]
      simp [identify, hok, hreq]
  · intro cfg st feature event dat h
    simp [track, h]

/-- Witness for C8 at concrete states sharing the same token. -/
theorem c8_storage_frame_witness :
    storage.get (forget stTok) "other-key" = storage.get stTok "other-key" ∧
    storage.get (identify cfgEx stTok respOk).state "other-key" =
      storage.get stTok "other-key" ∧
    track cfgEx stTok "f" none none = track cfgEx stTok2 "f" none none ∧
    (identify cfgEx stTok respOk).result = (identify cfgEx stTok2 respOk).result ∧
    track cfgEx stNoTok "f" none none = none := by
  exact ⟨c8_storage_frame.1 stTok "other-key" (by decide),
    c8_storage_frame.2.1 cfgEx stTok respOk "other-key" (by decide),
    c8_storage_frame.2.2.1 cfgEx stTok stTok2 "f" none none rfl,
    (c8_storage_frame.2.2.2.1 cfgEx stTok stTok2 respOk rfl).1,
    c8_storage_frame.2.2.2.2 cfgEx stNoTok "f" none none rfl⟩

/-- Claim C9: with no global `window` (server-side rendering), every storage
operation is a no-op and reads report the token absent; a 2xx identify still
resolves but persists nothing and issues no track request, and every track
call makes no network request — all total, nothing thrown. -/
theorem c9_ssr_noop (cfg : Config) (st : ClientState) (resp : IdentifyResponse)
    (feature : String) (event dat : Option String) (k v : String)
    (hw : st.hasWindow = false) :
    storage.get st k = none ∧
    storage.set st k v = st ∧
    storage.delete st k = st ∧
    (identify cfg st resp).state = st ∧
    (resp.ok = true → (identify cfg st resp).result = Except.ok ()) ∧
    (identify cfg st resp).requests = [] ∧
    track cfg st feature event dat = none := by
  have hget : ∀ key, storage.get st key = none := fun key => by simp [storage.get, hw]
  have hset : ∀ key value, storage.set st key value = st := fun key value => by
    simp [storage.set, hw]
  refine ⟨hget k, hset k v, by simp [storage.delete, hw], ?_, ?_, ?_, by simp [track, hget]⟩
  · cases hok : resp.ok
    · simp [identify, hok]
    · simp [identify, hok, hset]
  · intro hok
    simp [identify, hok]
  · cases hok : resp.ok
    · simp [identify, hok]
    · simp [identify, hok, hset, track, hget]

/-- Witness for C9 in the windowless state. -/
theorem c9_ssr_noop_witness :
    storage.get stNoWin "k" = none ∧
    storage.set stNoWin "k" "v" = stNoWin ∧
    (identify cfgEx stNoWin respOk).state = stNoWin ∧
    (identify cfgEx stNoWin respOk).result = Except.ok () ∧
    (identify cfgEx stNoWin respOk).requests = [] ∧
    track cfgEx stNoWin "f" none none = none := by
  have h := c9_ssr_noop cfgEx stNoWin respOk "f" none none "k" "v" rfl
  exact ⟨h.1, h.2.1, h.2.2.2.1, h.2.2.2.2.1 rfl, h.2.2.2.2.2.1, h.2.2.2.2.2.2⟩

/-- Claim C10: identify never rejects on a 2xx response whatever the JSON
body's shape; when the body lacks a `jwt` field the `undefined` value is
still handed to storage (in a browser environment the host coerces it to
the string "undefined" under `us-jwt`), with no validation and no error. -/
theorem c10_identify_2xx_lenient (cfg : Config) (st : ClientState) (resp : IdentifyResponse)
    (hok : resp.ok = true) :
    (identify cfg st resp).result = Except.ok () ∧
    (resp.jwtField = none → st.hasWindow = true →
      storage.get (identify cfg st resp).state JWT_STORAGE_KEY =
        some (jsToStoredString none)) := by
  refine ⟨by simp [identify, hok], ?_⟩
  intro hj hw
  rw [identify_state_ok cfg st resp hok, storage_get_set_self]
  simp [hw, hj]

/-- Witness for C10: a 2xx response with no `jwt` field. -/
theorem c10_identify_2xx_lenient_witness :
    (identify cfgEx stNoTok respNoJwt).result = Except.ok () ∧
    storage.get (identify cfgEx stNoTok respNoJwt).state JWT_STORAGE_KEY =
      some "undefined" := by
  have h := c10_identify_2xx_lenient cfgEx stNoTok respNoJwt rfl
  exact ⟨h.1, h.2 rfl rfl⟩

end Userstack
